import Mathlib

/-!
Verification of the spatial sink of the rodio audio library
(`src/spatial_sink.rs`), against its natural-language specification.

The file shallowly embeds `SpatialSink` and its operations.  The
collaborators that `spatial_sink.rs` consumes by interface only (the
non-spatial `Sink`, the `Spatial` source adapter, `periodic_access`, the
output stream handle) are modelled from the specification, as marked on
each definition.  `f32` values are pure pass-through data in this module:
the code stores them and hands them on, but never computes with them, so
they are modelled by `Int` to keep equality decidable.
-/

set_option autoImplicit false

/-- Stand-in for `f32`.  The spatial sink never performs arithmetic on
these values; they are opaque payload, modelled as `Int`. -/
abbrev F32 := Int

/-- A `[f32; 3]` position vector. -/
abbrev Vec3 := F32 × F32 × F32

/-- The record guarded by the handle's mutex (`struct SoundPositions`). -/
structure SoundPositions where
  emitter_position : Vec3
  left_ear : Vec3
  right_ear : Vec3
deriving DecidableEq, Repr

/-- Modelled from the spec: the single error kind of the public error
surface ("a single error kind, `PlayError`, returned only by the
factory").  Its payload is opaque; a `Nat` code distinguishes values. -/
structure PlayError where
  code : Nat
deriving DecidableEq, Repr

/-- Modelled from the spec: the output stream handle is opaque and its
only use is to construct the underlying non-spatial `Sink`, which either
succeeds or fails with a `PlayError`.  The handle is modelled by the
outcome it induces in that construction: `none` for a handle on which
sink construction succeeds, `some e` for one on which it fails with `e`. -/
abbrev OutputStreamHandle := Option PlayError

/-- Modelled from the spec: the underlying non-spatial `Sink` (consumed
by interface only; its code is not under `src/`).  Per the spec it is a
queued playback endpoint with FIFO queue and global volume, speed and
pause controls. -/
structure Sink (α : Type) where
  queue : List α
  vol : F32
  spd : F32
  paused : Bool

namespace Sink

/-- Modelled from the spec: `try_new(stream_handle) -> Sink | PlayError`;
a fresh sink starts with an empty queue, unity volume and speed, and not
paused. -/
def try_new {α : Type} (stream : OutputStreamHandle) : Except PlayError (Sink α) :=
  match stream with
  | some e => .error e
  | none => .ok { queue := [], vol := 1, spd := 1, paused := false }

/-- Modelled from the spec: `append` enqueues the source at the back of
the FIFO queue. -/
def append {α : Type} (s : Sink α) (x : α) : Sink α :=
  { s with queue := s.queue ++ [x] }

/-- Modelled from the spec: current gain multiplier. -/
def volume {α : Type} (s : Sink α) : F32 := s.vol

/-- Modelled from the spec: future samples multiplied by `v`. -/
def set_volume {α : Type} (s : Sink α) (v : F32) : Sink α := { s with vol := v }

/-- Modelled from the spec: current playback rate multiplier. -/
def speed {α : Type} (s : Sink α) : F32 := s.spd

/-- Modelled from the spec: future samples played at rate `v`. -/
def set_speed {α : Type} (s : Sink α) (v : F32) : Sink α := { s with spd := v }

/-- Modelled from the spec: resume if paused; no-op otherwise. -/
def play {α : Type} (s : Sink α) : Sink α := { s with paused := false }

/-- Modelled from the spec: suspend playback; queue retained. -/
def pause {α : Type} (s : Sink α) : Sink α := { s with paused := true }

/-- Modelled from the spec: paused state. -/
def is_paused {α : Type} (s : Sink α) : Bool := s.paused

/-- Modelled from the spec: drop all queued sources and enter paused
state. -/
def clear {α : Type} (s : Sink α) : Sink α := { s with queue := [], paused := true }

/-- Modelled from the spec: drop all queued sources. -/
def stop {α : Type} (s : Sink α) : Sink α := { s with queue := [] }

/-- Modelled from the spec: consume the handle; queued audio continues
to play without further control.  The call itself performs no state
mutation on the sink; the consumption of the handle is type-level in
Rust and is not part of the sink state. -/
def detach {α : Type} (s : Sink α) : Sink α := s

/-- Modelled from the spec: block the caller until the queue drains.
Blocking is temporal behaviour; the call itself performs no state
mutation on the sink, so it is the identity on the sink state. -/
def sleep_until_end {α : Type} (s : Sink α) : Sink α := s

/-- Modelled from the spec: queue empty? -/
def empty {α : Type} (s : Sink α) : Bool := s.queue.isEmpty

/-- Modelled from the spec: number of queued sources. -/
def len {α : Type} (s : Sink α) : Nat := s.queue.length

end Sink

/-- Modelled from the spec: the Spatial Source Adapter
(`crate::source::Spatial`, not under `src/`).  Per §4.2 its construction
takes the input source and an initial triple, and `set_positions`
replaces the stored triple.  The DSP itself is a collaborator choice and
is not modelled; the adapter state is the wrapped source plus the stored
triple. -/
structure Spatial (α : Type) where
  input : α
  emitter_position : Vec3
  left_ear : Vec3
  right_ear : Vec3
deriving DecidableEq, Repr

/-- Modelled from the spec: `Spatial::new(input, e, l, r)` stores the
input source and the initial triple. -/
def Spatial.new {α : Type} (input : α) (e l r : Vec3) : Spatial α :=
  { input := input, emitter_position := e, left_ear := l, right_ear := r }

/-- Modelled from the spec: `set_positions(emitter, left_ear, right_ear)`
updates the stored triple. -/
def Spatial.set_positions {α : Type} (s : Spatial α) (e l r : Vec3) : Spatial α :=
  { s with emitter_position := e, left_ear := l, right_ear := r }

/-- Modelled from the spec: the Periodic-Access Shell (§4.3,
`Source::periodic_access`, not under `src/`).  It wraps a source together
with the interval and the callback.  The Rust callback is a closure
capturing the shared position cell; here the callback takes as an extra
first argument the contents of the cell at invocation time, which is what
the closure reads through its captured `Arc<Mutex<..>>`. -/
structure PeriodicAccess (β : Type) where
  input : β
  period_ms : Nat
  access : SoundPositions → β → β

/-- Modelled from the spec: constructing the shell stores the wrapped
source, the interval and the callback. -/
def periodic_access {β : Type} (input : β) (period : Nat)
    (f : SoundPositions → β → β) : PeriodicAccess β :=
  { input := input, period_ms := period, access := f }

/-- The element type of the underlying sink's queue after `append`: the
Spatial adapter wrapped in the periodic-access shell. -/
abbrev ShelledSpatial (α : Type) := PeriodicAccess (Spatial α)

/-- The handle of `src/spatial_sink.rs`: `struct SpatialSink { sink: Sink,
positions: Arc<Mutex<SoundPositions>> }`.  State-passing embedding: the
mutex-guarded cell appears as its current contents. -/
structure SpatialSink (α : Type) where
  sink : Sink (ShelledSpatial α)
  positions : SoundPositions

namespace SpatialSink

/-- `SpatialSink::try_new`: builds the underlying sink with `?` on the
stream handle, and the position cell initialized to the given triple. -/
def try_new {α : Type} (stream : OutputStreamHandle)
    (emitter_position left_ear right_ear : Vec3) :
    Except PlayError (SpatialSink α) :=
  match Sink.try_new stream with
  | .error e => .error e
  | .ok sink =>
    .ok { sink := sink
          positions :=
            { emitter_position := emitter_position
              left_ear := left_ear
              right_ear := right_ear } }

/-- `set_emitter_position`: `self.positions.lock().unwrap().emitter_position = pos`. -/
def set_emitter_position {α : Type} (s : SpatialSink α) (pos : Vec3) : SpatialSink α :=
  { s with positions := { s.positions with emitter_position := pos } }

/-- `set_left_ear_position`: `self.positions.lock().unwrap().left_ear = pos`. -/
def set_left_ear_position {α : Type} (s : SpatialSink α) (pos : Vec3) : SpatialSink α :=
  { s with positions := { s.positions with left_ear := pos } }

/-- `set_right_ear_position`: `self.positions.lock().unwrap().right_ear = pos`. -/
def set_right_ear_position {α : Type} (s : SpatialSink α) (pos : Vec3) : SpatialSink α :=
  { s with positions := { s.positions with right_ear := pos } }

/-- `SpatialSink::append`: snapshot the cell, build the `Spatial` adapter
from the snapshot, wrap it in a 10 ms periodic-access shell whose
callback re-reads the cell and calls `set_positions`, and append the
result to the underlying sink. -/
def append {α : Type} (s : SpatialSink α) (source : α) : SpatialSink α :=
  let pos_lock := s.positions
  let src := periodic_access
    (Spatial.new source pos_lock.emitter_position pos_lock.left_ear pos_lock.right_ear)
    10
    (fun pos i => i.set_positions pos.emitter_position pos.left_ear pos.right_ear)
  { s with sink := s.sink.append src }

/-- `volume`: forwarded to the underlying sink. -/
def volume {α : Type} (s : SpatialSink α) : F32 := s.sink.volume

/-- `set_volume`: forwarded to the underlying sink. -/
def set_volume {α : Type} (s : SpatialSink α) (value : F32) : SpatialSink α :=
  { s with sink := s.sink.set_volume value }

/-- `speed`: forwarded to the underlying sink. -/
def speed {α : Type} (s : SpatialSink α) : F32 := s.sink.speed

/-- `set_speed`: forwarded to the underlying sink. -/
def set_speed {α : Type} (s : SpatialSink α) (value : F32) : SpatialSink α :=
  { s with sink := s.sink.set_speed value }

/-- `play`: forwarded to the underlying sink. -/
def play {α : Type} (s : SpatialSink α) : SpatialSink α :=
  { s with sink := s.sink.play }

/-- `pause`: forwarded to the underlying sink. -/
def pause {α : Type} (s : SpatialSink α) : SpatialSink α :=
  { s with sink := s.sink.pause }

/-- `is_paused`: forwarded to the underlying sink. -/
def is_paused {α : Type} (s : SpatialSink α) : Bool := s.sink.is_paused

/-- `clear`: forwarded to the underlying sink. -/
def clear {α : Type} (s : SpatialSink α) : SpatialSink α :=
  { s with sink := s.sink.clear }

/-- `stop`: forwarded to the underlying sink. -/
def stop {α : Type} (s : SpatialSink α) : SpatialSink α :=
  { s with sink := s.sink.stop }

/-- `detach(self)`: consumes the handle and forwards to the underlying
sink; the handle no longer exists afterwards, so the result is the
(detached) sink state alone. -/
def detach {α : Type} (s : SpatialSink α) : Sink (ShelledSpatial α) :=
  s.sink.detach

/-- `sleep_until_end`: forwarded to the underlying sink. -/
def sleep_until_end {α : Type} (s : SpatialSink α) : SpatialSink α :=
  { s with sink := s.sink.sleep_until_end }

/-- `empty`: forwarded to the underlying sink. -/
def empty {α : Type} (s : SpatialSink α) : Bool := s.sink.empty

/-- `len`: forwarded to the underlying sink. -/
def len {α : Type} (s : SpatialSink α) : Nat := s.sink.len

end SpatialSink

/-- Selector for the three fields of the position cell. -/
inductive Fld
  | emitter
  | left
  | right
deriving DecidableEq, Repr

/-- Read one field of a `SoundPositions` record. -/
def readField (p : SoundPositions) : Fld → Vec3
  | .emitter => p.emitter_position
  | .left => p.left_ear
  | .right => p.right_ear

/-- One position-setter call, as data: which setter, with which vector. -/
def applySetter {α : Type} (c : Fld × Vec3) (s : SpatialSink α) : SpatialSink α :=
  match c.1 with
  | .emitter => s.set_emitter_position c.2
  | .left => s.set_left_ear_position c.2
  | .right => s.set_right_ear_position c.2

/-- Read one scalar component of a position vector. -/
def vcomp : Vec3 → Nat → F32
  | (a, _, _), 0 => a
  | (_, b, _), 1 => b
  | (_, _, c), _ => c

/-- Index of each field in the nine-scalar layout of the cell. -/
def Fld.idx : Fld → Nat
  | .emitter => 0
  | .left => 1
  | .right => 2

/-- The nine scalar cells of the position record, component-wise: the raw
memory guarded by the mutex.  Each `[f32; 3]` field occupies three
consecutive scalar cells, so that writes of single components (and hence
torn vectors) are expressible. -/
def cellsOf (p : SoundPositions) : List F32 :=
  [vcomp p.emitter_position 0, vcomp p.emitter_position 1, vcomp p.emitter_position 2,
   vcomp p.left_ear 0, vcomp p.left_ear 1, vcomp p.left_ear 2,
   vcomp p.right_ear 0, vcomp p.right_ear 1, vcomp p.right_ear 2]

/-- The vector of field `f` as laid out in a nine-scalar memory; also
used to regroup a nine-entry snapshot log into its three vectors. -/
def memField (mem : List F32) (f : Fld) : Vec3 :=
  (mem.getD (3 * f.idx) 0, mem.getD (3 * f.idx + 1) 0, mem.getD (3 * f.idx + 2) 0)

/-- State of one thread in the interleaved execution over the position
cell.  A position-setter call
(`self.positions.lock().unwrap().<field> = pos`) is: acquire the mutex,
store the three scalar components of its vector one at a time, release.
A snapshot (the read in `append`, or the one in a periodic-access
callback) is: acquire the mutex, read the nine scalar components one at
a time into a log, release.  The mutex is what forbids interleavings in
which a snapshot reads between the component stores of a setter. -/
inductive TState
  | wPre (f : Fld) (v : Vec3)
  | wRun (f : Fld) (v : Vec3) (k : Nat)
  | wDone (f : Fld) (v : Vec3)
  | sPre
  | sRun (k : Nat) (log : List F32)
  | sDone (log : List F32)
deriving DecidableEq, Repr

/-- Global state of the interleaved execution: the nine scalar cells,
the mutex owner, and the thread states. -/
structure Sys where
  mem : List F32
  lockHolder : Option Nat
  threads : List TState
deriving DecidableEq, Repr

/-- One interleaving step: thread `t` performs its next micro-operation
if it can (acquiring the free mutex, or storing, loading or releasing
while it holds the mutex); otherwise the state is unchanged. -/
def step (sys : Sys) (t : Nat) : Sys :=
  match sys.threads[t]? with
  | none => sys
  | some ts =>
    match ts with
    | .wPre f v =>
      match sys.lockHolder with
      | none =>
        { sys with lockHolder := some t, threads := sys.threads.set t (.wRun f v 0) }
      | some _ => sys
    | .wRun f v k =>
      if sys.lockHolder = some t then
        if k < 3 then
          { sys with mem := sys.mem.set (3 * f.idx + k) (vcomp v k),
                     threads := sys.threads.set t (.wRun f v (k + 1)) }
        else
          { sys with lockHolder := none, threads := sys.threads.set t (.wDone f v) }
      else sys
    | .wDone _ _ => sys
    | .sPre =>
      match sys.lockHolder with
      | none =>
        { sys with lockHolder := some t, threads := sys.threads.set t (.sRun 0 []) }
      | some _ => sys
    | .sRun k log =>
      if sys.lockHolder = some t then
        if k < 9 then
          { sys with threads := sys.threads.set t (.sRun (k + 1) (log ++ [sys.mem.getD k 0])) }
        else
          { sys with lockHolder := none, threads := sys.threads.set t (.sDone log) }
      else sys
    | .sDone _ => sys

/-- Run an arbitrary interleaving, given as a schedule of thread picks. -/
def run (sys : Sys) (sched : List Nat) : Sys :=
  sched.foldl step sys

/-- Initial thread pool: one writer per setter call in `ws`, plus `n`
snapshot readers. -/
def initThreads (ws : List (Fld × Vec3)) (n : Nat) : List TState :=
  ws.map (fun w => .wPre w.1 w.2) ++ List.replicate n .sPre

/-- Initial system: cell contents `p`, mutex free, all threads at rest. -/
def initSys (p : SoundPositions) (ws : List (Fld × Vec3)) (n : Nat) : Sys :=
  { mem := cellsOf p, lockHolder := none, threads := initThreads ws n }

/-- The complete vectors that the setter calls in `ws` write to field `f`. -/
def writesFor (ws : List (Fld × Vec3)) (f : Fld) : List Vec3 :=
  (ws.filter (fun w => w.1 = f)).map Prod.snd

/-- A vector observed for field `f` is untorn: it is the entire initial
value or the entire value of some setter call. -/
def goodVec (p : SoundPositions) (ws : List (Fld × Vec3)) (f : Fld) (v : Vec3) : Prop :=
  v = readField p f ∨ v ∈ writesFor ws f

/-- Every field of a nine-scalar memory holds an untorn vector. -/
def memGood (p : SoundPositions) (ws : List (Fld × Vec3)) (mem : List F32) : Prop :=
  ∀ f, goodVec p ws f (memField mem f)

/-- A thread currently inside the critical section. -/
def holding : TState → Prop
  | .wRun _ _ _ => True
  | .sRun _ _ => True
  | _ => False

/-- Per-thread invariant: writer values come from `ws`, program counters
are in range, and a finished snapshot's log regroups into untorn
vectors. -/
def tOK (p : SoundPositions) (ws : List (Fld × Vec3)) : TState → Prop
  | .wPre f v => (f, v) ∈ ws
  | .wRun f v k => (f, v) ∈ ws ∧ k ≤ 3
  | .wDone f v => (f, v) ∈ ws
  | .sPre => True
  | .sRun k _ => k ≤ 9
  | .sDone log => ∀ f, goodVec p ws f (memField log f)

/-- All threads of a pool satisfy the per-thread invariant. -/
def tOKs (p : SoundPositions) (ws : List (Fld × Vec3)) (l : List TState) : Prop :=
  ∀ (i : Nat) (ts : TState), l[i]? = some ts → tOK p ws ts

/-- What the current mutex owner guarantees about the memory: a writer
mid-store has written exactly a prefix of its vector into its own field
and left the other fields untorn; a reader mid-snapshot sees untorn
memory and has logged exactly the cells it has read so far. -/
def holderOK (p : SoundPositions) (ws : List (Fld × Vec3)) (mem : List F32) :
    TState → Prop
  | .wRun f v k =>
      (∀ i, i < k → mem.getD (3 * f.idx + i) 0 = vcomp v i) ∧
      (∀ g, g ≠ f → goodVec p ws g (memField mem g))
  | .sRun k log =>
      memGood p ws mem ∧ log = (List.range k).map (fun j => mem.getD j 0)
  | _ => False

/-- The execution invariant: memory has nine cells, every thread is
well-formed, and the mutex discipline holds — when the mutex is free the
memory is untorn and nobody is in a critical section; when it is owned,
the owner is a unique thread in its critical section and `holderOK`
relates it to the memory. -/
def SysInv (p : SoundPositions) (ws : List (Fld × Vec3)) (sys : Sys) : Prop :=
  sys.mem.length = 9 ∧
  tOKs p ws sys.threads ∧
  (sys.lockHolder = none →
    (∀ (i : Nat) (ts : TState), sys.threads[i]? = some ts → ¬ holding ts) ∧
      memGood p ws sys.mem) ∧
  (∀ i : Nat, sys.lockHolder = some i →
    ∃ ts : TState, sys.threads[i]? = some ts ∧ holding ts ∧ holderOK p ws sys.mem ts ∧
      (∀ (j : Nat) (ts' : TState), j ≠ i → sys.threads[j]? = some ts' → ¬ holding ts'))

/-- A concrete fresh underlying sink, as produced by a successful
`Sink.try_new`; used to instantiate general theorems at a concrete
handle. -/
def freshSink : Sink (ShelledSpatial Unit) :=
  { queue := [], vol := 1, spd := 1, paused := false }

/-- A concrete fresh handle with the all-zero initial triple. -/
def freshHandle : SpatialSink Unit :=
  { sink := freshSink
    positions :=
      { emitter_position := (0, 0, 0), left_ear := (0, 0, 0), right_ear := (0, 0, 0) } }

/-- A concrete handle whose triple has distinguishable components. -/
def handle123 : SpatialSink Unit :=
  { sink := freshSink
    positions :=
      { emitter_position := (1, 2, 3), left_ear := (4, 5, 6), right_ear := (7, 8, 9) } }

/-- Claim C3: each position setter replaces exactly its own field of the
position cell and leaves the other two fields and the underlying sink
unchanged. -/
theorem setters_modify_only_their_field {α : Type} (s : SpatialSink α) (v : Vec3) :
    ((s.set_emitter_position v).positions.emitter_position = v ∧
      (s.set_emitter_position v).positions.left_ear = s.positions.left_ear ∧
      (s.set_emitter_position v).positions.right_ear = s.positions.right_ear ∧
      (s.set_emitter_position v).sink = s.sink) ∧
    ((s.set_left_ear_position v).positions.left_ear = v ∧
      (s.set_left_ear_position v).positions.emitter_position = s.positions.emitter_position ∧
      (s.set_left_ear_position v).positions.right_ear = s.positions.right_ear ∧
      (s.set_left_ear_position v).sink = s.sink) ∧
    ((s.set_right_ear_position v).positions.right_ear = v ∧
      (s.set_right_ear_position v).positions.emitter_position = s.positions.emitter_position ∧
      (s.set_right_ear_position v).positions.left_ear = s.positions.left_ear ∧
      (s.set_right_ear_position v).sink = s.sink) :=
  ⟨⟨rfl, rfl, rfl, rfl⟩, ⟨rfl, rfl, rfl, rfl⟩, ⟨rfl, rfl, rfl, rfl⟩⟩

/-- Claim C10: `append` never modifies the position cell: the triple
stored after `append` equals the triple stored before. -/
theorem append_preserves_positions {α : Type} (s : SpatialSink α) (source : α) :
    (s.append source).positions = s.positions :=
  rfl

/-- Claim C9: after any finite sequence of setter calls ending in a call
that writes `v` to field `f`, a snapshot of the cell returns `v` for that
field: only the latest write is observable. -/
theorem last_write_wins {α : Type} (s : SpatialSink α)
    (calls : List (Fld × Vec3)) (f : Fld) (v : Vec3) :
    readField ((calls ++ [(f, v)]).foldl (fun s c => applySetter c s) s).positions f = v := by
  rw [List.foldl_append]
  cases f <;> rfl

/-- Claim C6: after `clear()`, `empty()` is true, `len()` is 0,
`is_paused()` is true, and the queue of previously appended sources is
empty (so they produce no further samples). -/
theorem clear_empties_and_pauses {α : Type} (s : SpatialSink α) :
    s.clear.empty = true ∧ s.clear.len = 0 ∧ s.clear.is_paused = true ∧
      s.clear.sink.queue = [] :=
  ⟨rfl, rfl, rfl, rfl⟩

/-- Claim C2: every appended source is wrapped in a periodic-access shell
whose interval is exactly 10 ms and whose callback, given the cell
contents at invocation time, passes exactly the three stored vectors to
the adapter's `set_positions`. -/
theorem append_shell_interval_and_callback {α : Type} (s : SpatialSink α) (source : α) :
    ((s.append source).sink.queue.getLast?).map (fun p => p.period_ms) = some 10 ∧
    ((s.append source).sink.queue.getLast?).map (fun p => p.access) =
      some (fun pos i =>
        i.set_positions pos.emitter_position pos.left_ear pos.right_ear) := by
  constructor <;>
    simp [SpatialSink.append, Sink.append, periodic_access, List.getLast?_concat]

/-- Claim C1: `append` constructs the Spatial adapter with exactly the
triple currently stored in the position cell as its initial state; in
particular, after `set_emitter_position E; append src` on a fresh handle
the adapter for `src` is created with emitter = `E` (per §4.2 the very
first sample is computed from the adapter's initial triple). -/
theorem append_adapter_initial_state {α : Type} :
    (∀ (s : SpatialSink α) (source : α),
      ((s.append source).sink.queue.getLast?).map (fun p => p.input) =
        some (Spatial.new source s.positions.emitter_position
          s.positions.left_ear s.positions.right_ear)) ∧
    (∀ (stream : OutputStreamHandle) (e0 l0 r0 E : Vec3) (source : α)
      (h : SpatialSink α),
      SpatialSink.try_new stream e0 l0 r0 = .ok h →
        (((h.set_emitter_position E).append source).sink.queue.getLast?).map
          (fun p => p.input.emitter_position) = some E) := by
  constructor
  · intro s source
    simp [SpatialSink.append, Sink.append, periodic_access, List.getLast?_concat]
  · intro stream e0 l0 r0 E source h hok
    simp [SpatialSink.append, SpatialSink.set_emitter_position, Sink.append,
      periodic_access, Spatial.new, List.getLast?_concat]

theorem append_adapter_initial_state_witness :
    (((freshHandle.set_emitter_position (1, 2, 3)).append ()).sink.queue.getLast?).map
      (fun p => p.input.emitter_position) = some (1, 2, 3) :=
  (append_adapter_initial_state (α := Unit)).2 none (0, 0, 0) (0, 0, 0) (0, 0, 0)
    (1, 2, 3) () freshHandle rfl

/-- Claim C7: when `try_new(stream, e, l, r)` succeeds, the returned
handle's position cell holds exactly the triple `(e, l, r)`, so a
snapshot taken before any setter call returns `(e, l, r)`. -/
theorem try_new_initial_positions {α : Type} (stream : OutputStreamHandle)
    (e l r : Vec3) (h : SpatialSink α)
    (hok : SpatialSink.try_new stream e l r = .ok h) :
    h.positions = { emitter_position := e, left_ear := l, right_ear := r } := by
  cases stream with
  | none =>
    simp [SpatialSink.try_new, Sink.try_new] at hok
    rw [← hok]
  | some err => simp [SpatialSink.try_new, Sink.try_new] at hok

theorem try_new_initial_positions_witness :
    handle123.positions =
      { emitter_position := (1, 2, 3), left_ear := (4, 5, 6), right_ear := (7, 8, 9) } :=
  try_new_initial_positions (α := Unit) none (1, 2, 3) (4, 5, 6) (7, 8, 9) handle123 rfl

/-- Claim C8: `try_new` fails with `err` exactly when the underlying
sink's constructor fails with the same `err`, succeeds exactly when it
succeeds (so no handle exists on failure), and `append` is unconditional:
it always succeeds and enqueues exactly one more source. -/
theorem try_new_error_iff_sink_error {α β : Type} (stream : OutputStreamHandle)
    (e l r : Vec3) :
    (∀ err : PlayError,
      (SpatialSink.try_new (α := α) stream e l r = .error err ↔
        Sink.try_new (α := β) stream = .error err)) ∧
    ((SpatialSink.try_new (α := α) stream e l r).isOk =
      (Sink.try_new (α := β) stream).isOk) ∧
    (∀ (s : SpatialSink α) (source : α),
      (s.append source).sink.queue.length = s.sink.queue.length + 1) := by
  refine ⟨?_, ?_, ?_⟩
  · intro err
    cases stream <;> simp [SpatialSink.try_new, Sink.try_new]
  · cases stream <;> rfl
  · intro s source
    simp [SpatialSink.append, Sink.append]

/-- Claim C5: every forwarded control operation on the handle has exactly
the effect and return value of the same operation on the underlying sink,
the position cell is untouched by all of them, and the handle keeps no
playback state beyond the embedded sink and the cell. -/
theorem controls_forward_to_sink {α : Type} (s : SpatialSink α) (v w : F32) :
    (s.volume = s.sink.volume) ∧
    ((s.set_volume v).sink = s.sink.set_volume v ∧ (s.set_volume v).positions = s.positions) ∧
    (s.speed = s.sink.speed) ∧
    ((s.set_speed w).sink = s.sink.set_speed w ∧ (s.set_speed w).positions = s.positions) ∧
    (s.play.sink = s.sink.play ∧ s.play.positions = s.positions) ∧
    (s.pause.sink = s.sink.pause ∧ s.pause.positions = s.positions) ∧
    (s.is_paused = s.sink.is_paused) ∧
    (s.clear.sink = s.sink.clear ∧ s.clear.positions = s.positions) ∧
    (s.stop.sink = s.sink.stop ∧ s.stop.positions = s.positions) ∧
    (s.detach = s.sink.detach) ∧
    (s.sleep_until_end.sink = s.sink.sleep_until_end ∧
      s.sleep_until_end.positions = s.positions) ∧
    (s.empty = s.sink.empty) ∧
    (s.len = s.sink.len) ∧
    (∀ s' : SpatialSink α, s'.sink = s.sink → s'.positions = s.positions → s' = s) := by
  refine ⟨rfl, ⟨rfl, rfl⟩, rfl, ⟨rfl, rfl⟩, ⟨rfl, rfl⟩, ⟨rfl, rfl⟩, rfl, ⟨rfl, rfl⟩,
    ⟨rfl, rfl⟩, rfl, ⟨rfl, rfl⟩, rfl, rfl, ?_⟩
  intro s' h1 h2
  cases s'
  cases s
  simp_all

theorem controls_forward_to_sink_witness :
    (freshHandle.volume = freshHandle.sink.volume) ∧
    ({ sink := freshHandle.sink, positions := freshHandle.positions } :
      SpatialSink Unit) = freshHandle :=
  ⟨(controls_forward_to_sink freshHandle 2 3).1,
    (controls_forward_to_sink freshHandle 2 3).2.2.2.2.2.2.2.2.2.2.2.2.2
      { sink := freshHandle.sink, positions := freshHandle.positions } rfl rfl⟩

theorem getElem?_some_lt {γ : Type} {l : List γ} {i : Nat} {x : γ}
    (hs : l[i]? = some x) : i < l.length := by
  by_contra hc
  rw [List.getElem?_eq_none (by omega)] at hs
  exact Option.noConfusion hs

theorem getD_set_self (l : List F32) (i : Nat) (a : F32) (h : i < l.length) :
    (l.set i a).getD i 0 = a := by
  rw [List.getD_eq_getElem?_getD, List.getElem?_set_eq_of_lt a h]
  rfl

theorem getD_set_diff {l : List F32} {i j : Nat} {a : F32} (h : i ≠ j) :
    (l.set i a).getD j 0 = l.getD j 0 := by
  rw [List.getD_eq_getElem?_getD, List.getElem?_set_ne h, ← List.getD_eq_getElem?_getD]

theorem fld_idx_lt (f : Fld) : f.idx < 3 := by
  cases f <;> decide

theorem fld_idx_inj {f g : Fld} (h : f.idx = g.idx) : f = g := by
  cases f <;> cases g <;> simp_all [Fld.idx]

theorem memField_set_other {mem : List F32} {f g : Fld} {k : Nat} {x : F32}
    (hne : g ≠ f) (hk : k < 3) :
    memField (mem.set (3 * f.idx + k) x) g = memField mem g := by
  have hgf : g.idx ≠ f.idx := fun hh => hne (fld_idx_inj hh)
  unfold memField
  rw [getD_set_diff (show 3 * f.idx + k ≠ 3 * g.idx by omega),
    getD_set_diff (show 3 * f.idx + k ≠ 3 * g.idx + 1 by omega),
    getD_set_diff (show 3 * f.idx + k ≠ 3 * g.idx + 2 by omega)]

theorem memField_of_comps {mem : List F32} {f : Fld} {v : Vec3}
    (h : ∀ i, i < 3 → mem.getD (3 * Fld.idx f + i) 0 = vcomp v i) :
    memField mem f = v := by
  obtain ⟨a, b, c⟩ := v
  have h0 := h 0 (by omega)
  have h1 := h 1 (by omega)
  have h2 := h 2 (by omega)
  simp only [Nat.add_zero] at h0
  simp only [vcomp] at h0 h1 h2
  unfold memField
  rw [h0, h1, h2]

theorem mem_writesFor {ws : List (Fld × Vec3)} {f : Fld} {v : Vec3}
    (h : (f, v) ∈ ws) : v ∈ writesFor ws f :=
  List.mem_map_of_mem _ (List.mem_filter.2 ⟨h, by simp⟩)

theorem memField_cellsOf (p : SoundPositions) (f : Fld) :
    memField (cellsOf p) f = readField p f := by
  obtain ⟨⟨a, b, c⟩, ⟨d, e, g⟩, ⟨x, y, z⟩⟩ := p
  cases f <;> rfl

theorem memField_snapLog (mem : List F32) (f : Fld) :
    memField ((List.range 9).map (fun j => mem.getD j 0)) f = memField mem f := by
  cases f <;> rfl

theorem tOKs_set {p : SoundPositions} {ws : List (Fld × Vec3)} {l : List TState}
    {t : Nat} {a : TState} (hl : tOKs p ws l) (ha : tOK p ws a) :
    tOKs p ws (l.set t a) := by
  intro i ts hi
  by_cases hit : t = i
  · subst hit
    by_cases hlt : t < l.length
    · rw [List.getElem?_set_eq_of_lt a hlt] at hi
      cases hi
      exact ha
    · rw [List.set_eq_of_length_le (by omega)] at hi
      exact hl _ _ hi
  · rw [List.getElem?_set_ne hit] at hi
    exact hl _ _ hi

theorem step_none {sys : Sys} {t : Nat} (h : sys.threads[t]? = none) :
    step sys t = sys := by
  unfold step
  rw [h]

theorem step_wPre_free {sys : Sys} {t : Nat} {f : Fld} {v : Vec3}
    (h : sys.threads[t]? = some (.wPre f v)) (hl : sys.lockHolder = none) :
    step sys t =
      { sys with lockHolder := some t, threads := sys.threads.set t (.wRun f v 0) } := by
  unfold step
  rw [h, hl]

theorem step_wPre_busy {sys : Sys} {t : Nat} {f : Fld} {v : Vec3} {o : Nat}
    (h : sys.threads[t]? = some (.wPre f v)) (hl : sys.lockHolder = some o) :
    step sys t = sys := by
  unfold step
  rw [h, hl]

theorem step_wRun_store {sys : Sys} {t : Nat} {f : Fld} {v : Vec3} {k : Nat}
    (h : sys.threads[t]? = some (.wRun f v k)) (hl : sys.lockHolder = some t)
    (hk : k < 3) :
    step sys t =
      { sys with mem := sys.mem.set (3 * f.idx + k) (vcomp v k),
                 threads := sys.threads.set t (.wRun f v (k + 1)) } := by
  unfold step
  simp only [h]
  rw [if_pos hl, if_pos hk]

theorem step_wRun_unlock {sys : Sys} {t : Nat} {f : Fld} {v : Vec3} {k : Nat}
    (h : sys.threads[t]? = some (.wRun f v k)) (hl : sys.lockHolder = some t)
    (hk : ¬ k < 3) :
    step sys t =
      { sys with lockHolder := none, threads := sys.threads.set t (.wDone f v) } := by
  unfold step
  simp only [h]
  rw [if_pos hl, if_neg hk]

theorem step_wRun_blocked {sys : Sys} {t : Nat} {f : Fld} {v : Vec3} {k : Nat}
    (h : sys.threads[t]? = some (.wRun f v k)) (hl : ¬ sys.lockHolder = some t) :
    step sys t = sys := by
  unfold step
  simp only [h]
  rw [if_neg hl]

theorem step_wDone {sys : Sys} {t : Nat} {f : Fld} {v : Vec3}
    (h : sys.threads[t]? = some (.wDone f v)) : step sys t = sys := by
  unfold step
  rw [h]

theorem step_sPre_free {sys : Sys} {t : Nat}
    (h : sys.threads[t]? = some .sPre) (hl : sys.lockHolder = none) :
    step sys t =
      { sys with lockHolder := some t, threads := sys.threads.set t (.sRun 0 []) } := by
  unfold step
  rw [h, hl]

theorem step_sPre_busy {sys : Sys} {t : Nat} {o : Nat}
    (h : sys.threads[t]? = some .sPre) (hl : sys.lockHolder = some o) :
    step sys t = sys := by
  unfold step
  rw [h, hl]

theorem step_sRun_load {sys : Sys} {t : Nat} {k : Nat} {log : List F32}
    (h : sys.threads[t]? = some (.sRun k log)) (hl : sys.lockHolder = some t)
    (hk : k < 9) :
    step sys t =
      { sys with threads :=
          sys.threads.set t (.sRun (k + 1) (log ++ [sys.mem.getD k 0])) } := by
  unfold step
  simp only [h]
  rw [if_pos hl, if_pos hk]

theorem step_sRun_unlock {sys : Sys} {t : Nat} {k : Nat} {log : List F32}
    (h : sys.threads[t]? = some (.sRun k log)) (hl : sys.lockHolder = some t)
    (hk : ¬ k < 9) :
    step sys t =
      { sys with lockHolder := none, threads := sys.threads.set t (.sDone log) } := by
  unfold step
  simp only [h]
  rw [if_pos hl, if_neg hk]

theorem step_sRun_blocked {sys : Sys} {t : Nat} {k : Nat} {log : List F32}
    (h : sys.threads[t]? = some (.sRun k log)) (hl : ¬ sys.lockHolder = some t) :
    step sys t = sys := by
  unfold step
  simp only [h]
  rw [if_neg hl]

theorem step_sDone {sys : Sys} {t : Nat} {log : List F32}
    (h : sys.threads[t]? = some (.sDone log)) : step sys t = sys := by
  unfold step
  rw [h]

theorem sysInv_step (p : SoundPositions) (ws : List (Fld × Vec3)) (sys : Sys)
    (t : Nat) (h : SysInv p ws sys) : SysInv p ws (step sys t) := by
  obtain ⟨hlen, htok, hfree, hbusy⟩ := h
  cases hts : sys.threads[t]? with
  | none =>
    rw [step_none hts]
    exact ⟨hlen, htok, hfree, hbusy⟩
  | some ts =>
    have htlt : t < sys.threads.length := getElem?_some_lt hts
    cases ts with
    | wPre f v =>
      cases hl : sys.lockHolder with
      | some o =>
        rw [step_wPre_busy hts hl]
        exact ⟨hlen, htok, hfree, hbusy⟩
      | none =>
        rw [step_wPre_free hts hl]
        obtain ⟨hnoh, hgood⟩ := hfree hl
        refine ⟨hlen, tOKs_set htok ⟨htok t _ hts, by omega⟩, ?_, ?_⟩
        · intro hcon
          exact Option.noConfusion hcon
        · intro i hi
          injection hi with hi
          subst hi
          refine ⟨.wRun f v 0, List.getElem?_set_eq_of_lt _ htlt, trivial,
            ⟨fun i0 hi0 => absurd hi0 (by omega), fun g _ => hgood g⟩, ?_⟩
          intro j ts' hji hj
          rw [List.getElem?_set_ne (show t ≠ j by omega)] at hj
          exact hnoh j ts' hj
    | wRun f v k =>
      by_cases hl : sys.lockHolder = some t
      · obtain ⟨ts0, hts0, _, hOK, hexcl⟩ := hbusy t hl
        rw [hts] at hts0
        injection hts0 with hts0
        subst hts0
        obtain ⟨hpre, hothers⟩ := hOK
        obtain ⟨hfv, hk3⟩ := htok t _ hts
        by_cases hk : k < 3
        · rw [step_wRun_store hts hl hk]
          refine ⟨by rw [List.length_set]; exact hlen,
            tOKs_set htok ⟨hfv, by omega⟩, ?_, ?_⟩
          · intro hcon
            rw [hl] at hcon
            exact Option.noConfusion hcon
          · intro i hi
            rw [hl] at hi
            injection hi with hi
            subst hi
            refine ⟨.wRun f v (k + 1), List.getElem?_set_eq_of_lt _ htlt, trivial,
              ⟨?_, ?_⟩, ?_⟩
            · intro i0 hi0
              by_cases hik : i0 = k
              · subst hik
                exact getD_set_self _ _ _ (by have := fld_idx_lt f; omega)
              · rw [getD_set_diff (show 3 * f.idx + k ≠ 3 * f.idx + i0 by omega)]
                exact hpre i0 (by omega)
            · intro g hg
              rw [memField_set_other hg hk]
              exact hothers g hg
            · intro j ts' hji hj
              rw [List.getElem?_set_ne (show t ≠ j by omega)] at hj
              exact hexcl j ts' hji hj
        · rw [step_wRun_unlock hts hl hk]
          refine ⟨hlen, tOKs_set htok hfv, ?_, ?_⟩
          · intro _
            constructor
            · intro i ts' hi
              by_cases hit : t = i
              · subst hit
                rw [List.getElem?_set_eq_of_lt _ htlt] at hi
                cases hi
                exact fun hh => hh
              · rw [List.getElem?_set_ne hit] at hi
                exact hexcl i ts' (by omega) hi
            · intro g
              by_cases hgf : g = f
              · subst hgf
                right
                rw [memField_of_comps (fun i0 hi0 => hpre i0 (by omega))]
                exact mem_writesFor hfv
              · exact hothers g hgf
          · intro i hcon
            exact Option.noConfusion hcon
      · rw [step_wRun_blocked hts hl]
        exact ⟨hlen, htok, hfree, hbusy⟩
    | wDone f v =>
      rw [step_wDone hts]
      exact ⟨hlen, htok, hfree, hbusy⟩
    | sPre =>
      cases hl : sys.lockHolder with
      | some o =>
        rw [step_sPre_busy hts hl]
        exact ⟨hlen, htok, hfree, hbusy⟩
      | none =>
        rw [step_sPre_free hts hl]
        obtain ⟨hnoh, hgood⟩ := hfree hl
        refine ⟨hlen, tOKs_set htok (show (0 : Nat) ≤ 9 by omega), ?_, ?_⟩
        · intro hcon
          exact Option.noConfusion hcon
        · intro i hi
          injection hi with hi
          subst hi
          refine ⟨.sRun 0 [], List.getElem?_set_eq_of_lt _ htlt, trivial,
            ⟨hgood, rfl⟩, ?_⟩
          intro j ts' hji hj
          rw [List.getElem?_set_ne (show t ≠ j by omega)] at hj
          exact hnoh j ts' hj
    | sRun k log =>
      by_cases hl : sys.lockHolder = some t
      · obtain ⟨ts0, hts0, _, hOK, hexcl⟩ := hbusy t hl
        rw [hts] at hts0
        injection hts0 with hts0
        subst hts0
        obtain ⟨hmg, hlog⟩ := hOK
        have hk9 : k ≤ 9 := htok t _ hts
        by_cases hk : k < 9
        · rw [step_sRun_load hts hl hk]
          refine ⟨hlen, tOKs_set htok (show k + 1 ≤ 9 by omega), ?_, ?_⟩
          · intro hcon
            rw [hl] at hcon
            exact Option.noConfusion hcon
          · intro i hi
            rw [hl] at hi
            injection hi with hi
            subst hi
            refine ⟨.sRun (k + 1) (log ++ [sys.mem.getD k 0]),
              List.getElem?_set_eq_of_lt _ htlt, trivial, ⟨hmg, ?_⟩, ?_⟩
            · rw [hlog, List.range_succ, List.map_append]
              rfl
            · intro j ts' hji hj
              rw [List.getElem?_set_ne (show t ≠ j by omega)] at hj
              exact hexcl j ts' hji hj
        · rw [step_sRun_unlock hts hl hk]
          have hk9' : k = 9 := by omega
          subst hk9'
          refine ⟨hlen, tOKs_set htok ?_, ?_, ?_⟩
          · intro g
            rw [hlog, memField_snapLog]
            exact hmg g
          · intro _
            constructor
            · intro i ts' hi
              by_cases hit : t = i
              · subst hit
                rw [List.getElem?_set_eq_of_lt _ htlt] at hi
                cases hi
                exact fun hh => hh
              · rw [List.getElem?_set_ne hit] at hi
                exact hexcl i ts' (by omega) hi
            · exact hmg
          · intro i hcon
            exact Option.noConfusion hcon
      · rw [step_sRun_blocked hts hl]
        exact ⟨hlen, htok, hfree, hbusy⟩
    | sDone log =>
      rw [step_sDone hts]
      exact ⟨hlen, htok, hfree, hbusy⟩

theorem sysInv_init (p : SoundPositions) (ws : List (Fld × Vec3)) (n : Nat) :
    SysInv p ws (initSys p ws n) := by
  refine ⟨rfl, ?_, ?_, ?_⟩
  · intro i ts hi
    have hmem : ts ∈ initThreads ws n := List.getElem?_mem hi
    unfold initThreads at hmem
    rcases List.mem_append.1 hmem with hmap | hrep
    · obtain ⟨w, hw, rfl⟩ := List.mem_map.1 hmap
      exact hw
    · rw [List.eq_of_mem_replicate hrep]
      trivial
  · intro _
    constructor
    · intro i ts hi
      have hmem : ts ∈ initThreads ws n := List.getElem?_mem hi
      unfold initThreads at hmem
      rcases List.mem_append.1 hmem with hmap | hrep
      · obtain ⟨w, hw, rfl⟩ := List.mem_map.1 hmap
        exact fun hh => hh
      · rw [List.eq_of_mem_replicate hrep]
        exact fun hh => hh
    · intro g
      left
      exact memField_cellsOf p g
  · intro i hcon
    exact Option.noConfusion hcon

theorem sysInv_run (p : SoundPositions) (ws : List (Fld × Vec3)) (sched : List Nat)
    (sys : Sys) (h : SysInv p ws sys) : SysInv p ws (run sys sched) := by
  induction sched generalizing sys with
  | nil => exact h
  | cons a l ih => exact ih (step sys a) (sysInv_step p ws sys a h)

/-- Claim C4: for any interleaving of position-setter calls and cell
snapshots over the mutex-guarded cell (an arbitrary schedule over
component-granular micro-steps), every vector of a completed snapshot is
untorn: for each field, the three components read regroup to either the
entire initial vector or the entire vector of some setter call — never a
torn 3-tuple. -/
theorem snapshot_sees_whole_vectors (p : SoundPositions) (ws : List (Fld × Vec3))
    (n : Nat) (sched : List Nat) (t : Nat) (log : List F32)
    (h : (run (initSys p ws n) sched).threads[t]? = some (.sDone log)) (f : Fld) :
    memField log f = readField p f ∨ memField log f ∈ writesFor ws f := by
  have hinv := sysInv_run p ws sched _ (sysInv_init p ws n)
  exact hinv.2.1 t _ h f

theorem snapshot_sees_whole_vectors_witness :
    (memField [1, 2, 3, 20, 21, 22, 30, 31, 32] Fld.emitter =
        readField ⟨(10, 11, 12), (20, 21, 22), (30, 31, 32)⟩ Fld.emitter ∨
      memField [1, 2, 3, 20, 21, 22, 30, 31, 32] Fld.emitter ∈
        writesFor [(Fld.emitter, ((1 : F32), (2 : F32), (3 : F32)))] Fld.emitter) ∧
    (memField [1, 2, 3, 20, 21, 22, 30, 31, 32] Fld.left =
        readField ⟨(10, 11, 12), (20, 21, 22), (30, 31, 32)⟩ Fld.left ∨
      memField [1, 2, 3, 20, 21, 22, 30, 31, 32] Fld.left ∈
        writesFor [(Fld.emitter, ((1 : F32), (2 : F32), (3 : F32)))] Fld.left) ∧
    (memField [1, 2, 3, 20, 21, 22, 30, 31, 32] Fld.right =
        readField ⟨(10, 11, 12), (20, 21, 22), (30, 31, 32)⟩ Fld.right ∨
      memField [1, 2, 3, 20, 21, 22, 30, 31, 32] Fld.right ∈
        writesFor [(Fld.emitter, ((1 : F32), (2 : F32), (3 : F32)))] Fld.right) :=
  ⟨snapshot_sees_whole_vectors ⟨(10, 11, 12), (20, 21, 22), (30, 31, 32)⟩
      [(Fld.emitter, (1, 2, 3))] 1 [0, 0, 0, 0, 0, 1, 1, 1, 1, 1, 1, 1, 1, 1, 1, 1] 1
      [1, 2, 3, 20, 21, 22, 30, 31, 32] (by decide) Fld.emitter,
    snapshot_sees_whole_vectors ⟨(10, 11, 12), (20, 21, 22), (30, 31, 32)⟩
      [(Fld.emitter, (1, 2, 3))] 1 [0, 0, 0, 0, 0, 1, 1, 1, 1, 1, 1, 1, 1, 1, 1, 1] 1
      [1, 2, 3, 20, 21, 22, 30, 31, 32] (by decide) Fld.left,
    snapshot_sees_whole_vectors ⟨(10, 11, 12), (20, 21, 22), (30, 31, 32)⟩
      [(Fld.emitter, (1, 2, 3))] 1 [0, 0, 0, 0, 0, 1, 1, 1, 1, 1, 1, 1, 1, 1, 1, 1] 1
      [1, 2, 3, 20, 21, 22, 30, 31, 32] (by decide) Fld.right⟩
